import Mathlib

/-!
Verification of the salesforce-cli MCP server (two variants: a REST-API
implementation in `src/server/index.js` and a CLI-delegating implementation
in `src/unnamed/part_000`).  The JavaScript source is shallowly embedded:
JS objects used as keyed stores become association lists, `fetch` and
`execFile` outcomes become explicit environment values, promise settlement
becomes a transition system over event traces, and JS string truthiness is
modelled explicitly (`""`, `undefined` are falsy).
-/

/-- A JSON value, as produced by `JSON.parse` / consumed by `JSON.stringify`. -/
inductive Json where
  | null : Json
  | bool : Bool → Json
  | num : Int → Json
  | str : String → Json
  | arr : List Json → Json
  | obj : List (String × Json) → Json

mutual

/-- Model of `JSON.stringify` on a JSON value (escaping and the pretty-printing
indent argument are abstracted away; the structure of the output is kept). -/
def Json.serialize : Json → String
  | .null => "null"
  | .bool b => if b then "true" else "false"
  | .num n => toString n
  | .str s => "\"" ++ s ++ "\""
  | .arr xs => "[" ++ Json.serializeList xs ++ "]"
  | .obj fs => "\x7b" ++ Json.serializeObj fs ++ "\x7d"

def Json.serializeList : List Json → String
  | [] => ""
  | [x] => Json.serialize x
  | x :: y :: xs => Json.serialize x ++ "," ++ Json.serializeList (y :: xs)

def Json.serializeObj : List (String × Json) → String
  | [] => ""
  | [(k, v)] => "\"" ++ k ++ "\":" ++ Json.serialize v
  | (k, v) :: y :: xs =>
      "\"" ++ k ++ "\":" ++ Json.serialize v ++ "," ++ Json.serializeObj (y :: xs)

end

/-- JS truthiness of a possibly-absent string: `undefined` and `""` are falsy. -/
def truthyOpt : Option String → Bool
  | none => false
  | some s => s ≠ ""

/-- A stored credential record (the value saved under an alias in
`credentials.json`, built in `oauthLogin`). -/
structure OrgRecord where
  accessToken : String
  refreshToken : Option String
  instanceUrl : String
  loginUrl : String
  username : String
  orgId : String
  displayName : String
  authenticatedAt : String
deriving DecidableEq

/-- The credential store: a flat JS object keyed by alias, embedded as an
association list in property-insertion order. -/
abbrev Store := List (String × OrgRecord)

/-- Property lookup `orgs[alias]` on the store object. -/
def storeLookup : Store → String → Option OrgRecord
  | [], _ => none
  | (k, v) :: rest, a => if k = a then some v else storeLookup rest a

/-- `Object.keys(orgs)`, in insertion order. -/
def storeKeys (s : Store) : List String := s.map Prod.fst

/-- Property assignment `orgs[alias] = orgData` (as in `oauthLogin`): an
existing key keeps its position and gets the new value, a fresh key is
appended. -/
def storeSet (s : Store) (a : String) (v : OrgRecord) : Store :=
  if (storeLookup s a).isSome then
    s.map (fun p => if p.1 = a then (p.1, v) else p)
  else
    s ++ [(a, v)]

/-- Property deletion `delete orgs[alias]`. -/
def storeDelete (s : Store) (a : String) : Store :=
  s.filter (fun p => p.1 ≠ a)

/-- The body of a successful token-endpoint response used by `refreshToken`. -/
structure RefreshData where
  access_token : String
  instance_url : Option String
deriving DecidableEq

/-- The field updates `refreshToken` applies to the record found at the alias:
`accessToken` is overwritten, and `instanceUrl` only when the response carries
a truthy `instance_url`. -/
def applyRefresh (r : OrgRecord) (d : RefreshData) : OrgRecord :=
  { r with
    accessToken := d.access_token,
    instanceUrl :=
      match d.instance_url with
      | none => r.instanceUrl
      | some u => if u = "" then r.instanceUrl else u }

/-- The store mutation performed by `refreshToken` after a successful token
response: the record is updated in place only when the alias is still present
(`if (orgs[org._alias]) ... saveOrgs(orgs)`); the Bool reports whether
`saveOrgs` ran. -/
def refreshStoreUpdate (s : Store) (a : String) (d : RefreshData) :
    Store × Bool :=
  if (storeLookup s a).isSome then
    (s.map (fun p => if p.1 = a then (p.1, applyRefresh p.2 d) else p), true)
  else
    (s, false)

/-- Result of the `sf_org_logout` handler: the store after the call, whether
`saveOrgs` ran, and the JSON the handler returns. -/
structure LogoutResult where
  store : Store
  wrote : Bool
  response : Json

/-- The `sf_org_logout` tool handler: error object when the alias is absent
(no write), otherwise delete the key and save. -/
def sfOrgLogout (s : Store) (a : String) : LogoutResult :=
  if (storeLookup s a).isSome then
    { store := storeDelete s a,
      wrote := true,
      response := Json.obj [("success", Json.bool true),
                            ("removed", Json.str a)] }
  else
    { store := s,
      wrote := false,
      response := Json.obj
        [("error", Json.str ("Org \"" ++ a ++ "\" not found"))] }

/-- `getOrg(alias)`: resolve `alias || DEFAULT_ORG` (absent modelled as `""`),
return the matching record when the key is truthy and present, otherwise
throw only when the store is empty, else silently return the first stored
org.  The returned pair carries the `_alias` key alongside the record. -/
def getOrg (s : Store) (a : String) (defaultOrg : String) :
    Except String (String × OrgRecord) :=
  let key := if a ≠ "" then a else defaultOrg
  match (if key ≠ "" then storeLookup s key else none) with
  | some r => .ok (key, r)
  | none =>
    match s with
    | [] => .error
        "No Salesforce orgs connected. Use the sf_org_login tool to authenticate."
    | (k, r) :: _ => .ok (k, r)

/-- Whether an `Except` value is the thrown case. -/
def isErr {ε α : Type} : Except ε α → Bool
  | .error _ => true
  | .ok _ => false

-- ── CLI variant: runSf and sf_run_command ──

/-- A failed `execFileAsync` rejection: the captured output streams (absent
modelled as `""`, which is equally falsy in JS) and the error message. -/
structure ExecFailure where
  stdout : String
  stderr : String
  message : String
deriving DecidableEq

/-- Outcome of `execFileAsync(SF_PATH, args, ...)`: success carries
`(stdout, stderr)`, failure carries the rejection object. -/
def ExecOutcome := Except ExecFailure (String × String)

/-- `runSf`: on success return `stdout || stderr`; on failure return the
failed process's stdout, else its stderr, and throw only when both are
empty. -/
def runSf (o : ExecOutcome) : Except String String :=
  match o with
  | .ok (out, err) => .ok (if out ≠ "" then out else err)
  | .error e =>
    if e.stdout ≠ "" then .ok e.stdout
    else if e.stderr ≠ "" then .ok e.stderr
    else .error ("sf command failed: " ++ e.message)

/-- Accumulator pass of `command.split(/\s+/)` over the characters: `acc`
holds the current field reversed, `inRun` whether the previous character was
part of a whitespace run (so further run characters emit no extra field). -/
def splitWsAux : List Char → List Char → Bool → List String
  | [], acc, _ => [String.mk acc.reverse]
  | c :: cs, acc, inRun =>
      if c.isWhitespace then
        if inRun then splitWsAux cs acc true
        else String.mk acc.reverse :: splitWsAux cs [] true
      else splitWsAux cs (c :: acc) false

/-- `command.split(/\s+/)` (including its leading/trailing empty-field
behaviour on strings that start or end with whitespace). -/
def jsSplitWs (s : String) : List String := splitWsAux s.data [] false

/-- `if (!args.includes("--json")) args.push("--json")` as a transformation on
a token list. -/
def ensureJson (args : List String) : List String :=
  if args.contains "--json" then args else args ++ ["--json"]

/-- The argument list `sf_run_command` passes to the sf CLI for a given
command string. -/
def sfRunCommandArgs (command : String) : List String :=
  ensureJson (jsSplitWs command)

-- ── REST variant: sfApi / sfRawApi fetch-and-retry model ──

/-- An HTTP response as seen through `fetch`: its status code and its parsed
JSON body. -/
structure SfResponse where
  status : Nat
  body : Json

/-- `Response.ok` per the fetch specification: status in the range 200–299. -/
def respOk (r : SfResponse) : Bool := 200 ≤ r.status && r.status < 300

/-- The external world a single `sfApi`/`sfRawApi` call runs against: the
response to the first request fetch, the outcome of the token-endpoint fetch
(`none` when that response is not ok, making `refreshToken` throw), and the
response to the retried request fetch. -/
structure FetchEnv where
  first : SfResponse
  refreshOutcome : Option RefreshData
  second : SfResponse

/-- Observable trace of one `sfApi`/`sfRawApi` call: how many request fetches
ran, whether the 401 refresh-and-retry branch was entered, and the final
response (or the error thrown by a failed refresh). -/
structure RetryTrace where
  fetches : Nat
  refreshTried : Bool
  outcome : Except String SfResponse

/-- The shared retry logic of `sfApi` and `sfRawApi`
(`let res = await doFetch(...); if (res.status === 401 && org.refreshToken)
{ const newToken = await refreshToken(org); res = await doFetch(newToken); }`). -/
def fetchWithRetry (org : OrgRecord) (env : FetchEnv) : RetryTrace :=
  if env.first.status = 401 && truthyOpt org.refreshToken then
    match env.refreshOutcome with
    | none =>
        { fetches := 1, refreshTried := true,
          outcome := .error "Session expired. Re-authenticate with sf_org_login." }
    | some _ =>
        { fetches := 2, refreshTried := true, outcome := .ok env.second }
  else
    { fetches := 1, refreshTried := false, outcome := .ok env.first }

/-- `sfApi`'s mapping of the final response: 204 yields `{ success: true }`
without touching the body, any other ok status yields the parsed body, and a
non-ok status throws the serialized body. -/
def finalizeRes (r : SfResponse) : Except String Json :=
  if r.status = 204 then .ok (Json.obj [("success", Json.bool true)])
  else if respOk r then .ok r.body
  else .error (Json.serialize r.body)

/-- A full `sfApi` call against a resolved org record: retry logic followed by
response finalization; the trace keeps the fetch count and refresh flag. -/
def sfApiCall (org : OrgRecord) (env : FetchEnv) :
    Nat × Bool × Except String Json :=
  let t := fetchWithRetry org env
  match t.outcome with
  | .error e => (t.fetches, t.refreshTried, .error e)
  | .ok r => (t.fetches, t.refreshTried, finalizeRes r)

/-- A full `sfRawApi` call against a resolved org record: retry logic only,
the raw final response is handed back to the caller. -/
def sfRawApiCall (org : OrgRecord) (env : FetchEnv) : RetryTrace :=
  fetchWithRetry org env

-- ── CallTool dispatch ──

/-- A CallTool response: its single text content and the `isError` flag
(absence of the flag in JS is falsy, modelled as `false`). -/
structure CTResponse where
  text : String
  isError : Bool
deriving DecidableEq

/-- The `CallToolRequestSchema` handler (identical in both variants): unknown
tool names yield an error-flagged response, a throwing handler yields an
error-flagged response wrapping the message, a normal return is passed
through unflagged.  Handlers are `α → Except String String`: `.error` is a
thrown exception's `message`, `.ok` the returned text. -/
def callTool {α : Type} (handlers : String → Option (α → Except String String))
    (name : String) (args : α) : CTResponse :=
  match handlers name with
  | none => { text := "Unknown tool: " ++ name, isError := true }
  | some h =>
    match h args with
    | .ok r => { text := r, isError := false }
    | .error e => { text := "Error: " ++ e, isError := true }

-- ── oauthLogin settlement model ──

/-- A resolve or reject invocation on the `oauthLogin` promise executor. -/
inductive Settle where
  | res : Settle
  | rej : Settle
deriving DecidableEq

/-- State of the `oauthLogin` executor: the `settled` flag, the number of
in-flight success-path callback handlers that passed the `if (settled)`
guard and are awaiting the token exchange, and the resolve/reject
invocations made so far, in order. -/
structure OState where
  settled : Bool
  pending : Nat
  invocations : List Settle
  flips : Nat
deriving DecidableEq

/-- Initial executor state: not settled, nothing pending, nothing invoked. -/
def initO : OState :=
  { settled := false, pending := 0, invocations := [], flips := 0 }

/-- Events that can interleave during `oauthLogin`: a callback request on the
wrong path (404), a callback carrying an OAuth error or no code (synchronous
reject path), a callback carrying a code (passes the guard and suspends on
the token exchange), completion of a suspended handler (successfully,
resolving, or by a thrown error, rejecting), the listener's `error` event,
and the 2-minute timeout. -/
inductive OEvent where
  | reqOther : OEvent
  | reqError : OEvent
  | reqSuccess : OEvent
  | finishOk : OEvent
  | finishErr : OEvent
  | serverError : OEvent
  | timeout : OEvent
deriving DecidableEq

/-- A settlement site: every site in the source sets `settled = true` and then
invokes resolve or reject within the same synchronous segment.  `flips`
counts the invocations made while the `settled` flag was still false. -/
def settleSite (s : OState) (k : Settle) : OState :=
  { s with settled := true, invocations := s.invocations ++ [k],
           flips := s.flips + (if s.settled then 0 else 1) }

/-- One synchronous segment of the `oauthLogin` executor.  Guard checks
(`if (settled) return` / `if (!settled)`) happen at segment entry; the
success path re-checks nothing when its awaited token exchange completes. -/
def ostep (s : OState) (e : OEvent) : OState :=
  match e with
  | .reqOther => s
  | .reqError => if s.settled then s else settleSite s .rej
  | .reqSuccess => if s.settled then s else { s with pending := s.pending + 1 }
  | .finishOk =>
    match s.pending with
    | 0 => s
    | n + 1 => settleSite { s with pending := n } .res
  | .finishErr =>
    match s.pending with
    | 0 => s
    | n + 1 => settleSite { s with pending := n } .rej
  | .serverError => if s.settled then s else settleSite s .rej
  | .timeout => if s.settled then s else settleSite s .rej

/-- Run the executor over an interleaving of events. -/
def orun (t : List OEvent) : OState := t.foldl ostep initO

/-- Promise semantics: the settled value is fixed by the first resolve/reject
invocation; later invocations are ignored. -/
def promiseOutcome (s : OState) : Option Settle := s.invocations.head?

/-- Executor invariant: the `settled` flag is set exactly when some invocation
has happened, and exactly one invocation was made while the flag was false. -/
def goodO (s : OState) : Prop :=
  (s.settled = true ↔ s.invocations ≠ [])
  ∧ s.flips = (if s.invocations = [] then 0 else 1)

-- ── Concrete sample data used to exercise the definitions ──

/-- A concrete stored org record. -/
def sampleOrg : OrgRecord :=
  { accessToken := "tokA", refreshToken := some "refA",
    instanceUrl := "https://acme.my.salesforce.com",
    loginUrl := "https://login.salesforce.com", username := "admin@acme.com",
    orgId := "00D000000000001", displayName := "Acme Admin",
    authenticatedAt := "2026-01-01T00:00:00.000Z" }

/-- A second stored org record under another alias. -/
def sampleOrg2 : OrgRecord :=
  { sampleOrg with
    accessToken := "tokB", username := "dev@acme.com",
    orgId := "00D000000000002" }

/-- A two-org credential store. -/
def sampleStore : Store := [("prod", sampleOrg), ("dev", sampleOrg2)]

/-- A concrete successful token-endpoint response body. -/
def sampleRefresh : RefreshData :=
  { access_token := "tokNew", instance_url := some "https://new.example" }

/-- A fetch environment whose first response is a 401 and whose refresh
succeeds. -/
def sampleEnv401 : FetchEnv :=
  { first := { status := 401, body := Json.null },
    refreshOutcome := some sampleRefresh,
    second := { status := 200, body := Json.str "ok" } }

/-- A concrete dispatch table with one throwing and one normal handler. -/
def sampleHandlers : String → Option (Unit → Except String String) :=
  fun n =>
    if n = "sf_query" then some (fun _ => Except.error "boom")
    else if n = "sf_org_list" then some (fun _ => Except.ok "[]")
    else none

/-- A concrete failed sf process that produced only stderr. -/
def sampleFail : ExecFailure :=
  { stdout := "", stderr := "Warning: only stderr", message := "exit 1" }



-- ── Store lemmas ──

theorem storeLookup_cons (pk : String) (pv : OrgRecord) (rest : Store)
    (a : String) :
    storeLookup ((pk, pv) :: rest) a
      = if pk = a then some pv else storeLookup rest a := rfl

theorem storeDelete_cons (pk : String) (pv : OrgRecord) (rest : Store)
    (a : String) :
    storeDelete ((pk, pv) :: rest) a
      = if pk = a then storeDelete rest a
        else (pk, pv) :: storeDelete rest a := by
  by_cases hp : pk = a <;> simp [storeDelete, hp]

theorem storeLookup_delete_self (s : Store) (a : String) :
    storeLookup (storeDelete s a) a = none := by
  induction s with
  | nil => rfl
  | cons p rest ih =>
    obtain ⟨pk, pv⟩ := p
    rw [storeDelete_cons]
    by_cases hp : pk = a
    · rw [if_pos hp]; exact ih
    · rw [if_neg hp, storeLookup_cons, if_neg hp]; exact ih

theorem storeLookup_delete_ne (s : Store) (a k : String) (h : k ≠ a) :
    storeLookup (storeDelete s a) k = storeLookup s k := by
  induction s with
  | nil => rfl
  | cons p rest ih =>
    obtain ⟨pk, pv⟩ := p
    rw [storeDelete_cons, storeLookup_cons]
    by_cases hp : pk = a
    · subst hp
      rw [if_pos rfl, if_neg (fun hh : pk = k => h hh.symm)]
      exact ih
    · rw [if_neg hp, storeLookup_cons]
      by_cases hk : pk = k
      · rw [if_pos hk, if_pos hk]
      · rw [if_neg hk, if_neg hk]
        exact ih

theorem storeKeys_delete (s : Store) (a : String) :
    storeKeys (storeDelete s a) = (storeKeys s).filter (fun k => k ≠ a) := by
  induction s with
  | nil => rfl
  | cons p rest ih =>
    obtain ⟨pk, pv⟩ := p
    rw [storeDelete_cons]
    by_cases hp : pk = a
    · rw [if_pos hp]
      simp only [storeKeys, List.map_cons, List.filter_cons, decide_not, hp]
      simp only [storeKeys] at ih
      simp [ih]
    · rw [if_neg hp]
      simp only [storeKeys, List.map_cons, List.filter_cons, decide_not, hp]
      simp only [storeKeys] at ih
      simp [ih, hp]

theorem storeLookup_none_iff (s : Store) (a : String) :
    storeLookup s a = none ↔ a ∉ storeKeys s := by
  induction s with
  | nil => simp [storeLookup, storeKeys]
  | cons p rest ih =>
    obtain ⟨pk, pv⟩ := p
    rw [storeLookup_cons]
    by_cases hp : pk = a
    · subst hp
      simp [storeKeys]
    · rw [if_neg hp]
      simp only [storeKeys, List.map_cons, List.mem_cons]
      rw [ih]
      unfold storeKeys
      constructor
      · intro hn hmem
        rcases hmem with hmem | hmem
        · exact hp hmem.symm
        · exact hn hmem
      · intro hn hmem
        exact hn (Or.inr hmem)

theorem storeLookup_mapAt (g : OrgRecord → OrgRecord) (s : Store)
    (a k : String) :
    storeLookup (s.map (fun p => if p.1 = a then (p.1, g p.2) else p)) k
      = if k = a then (storeLookup s a).map g else storeLookup s k := by
  induction s with
  | nil => by_cases hk : k = a <;> simp [storeLookup, hk]
  | cons p rest ih =>
    obtain ⟨pk, pv⟩ := p
    rw [List.map_cons]
    dsimp only
    by_cases hp : pk = a
    · subst hp
      rw [if_pos rfl]
      rw [storeLookup_cons]
      by_cases hk : k = pk
      · subst hk
        rw [if_pos rfl, if_pos rfl, storeLookup_cons, if_pos rfl]
        rfl
      · have hk' : ¬pk = k := fun hh => hk hh.symm
        rw [if_neg hk', if_neg hk, ih, if_neg hk, storeLookup_cons, if_neg hk']
    · rw [if_neg hp, storeLookup_cons]
      by_cases hk : k = a
      · subst hk
        rw [if_pos rfl, storeLookup_cons, if_neg hp, if_neg hp, ih, if_pos rfl]
      · rw [if_neg hk, ih, if_neg hk, storeLookup_cons]

theorem storeKeys_mapAt (g : OrgRecord → OrgRecord) (s : Store) (a : String) :
    storeKeys (s.map (fun p => if p.1 = a then (p.1, g p.2) else p))
      = storeKeys s := by
  induction s with
  | nil => rfl
  | cons p rest ih =>
    obtain ⟨pk, pv⟩ := p
    by_cases hp : pk = a
    · subst hp
      simp [storeKeys] at ih ⊢
      exact ih
    · simp [storeKeys, hp] at ih ⊢
      exact ih

theorem storeLookup_append_self (s : Store) (a : String) (v : OrgRecord)
    (h : storeLookup s a = none) :
    storeLookup (s ++ [(a, v)]) a = some v := by
  induction s with
  | nil => simp [storeLookup]
  | cons p rest ih =>
    obtain ⟨pk, pv⟩ := p
    rw [storeLookup_cons] at h
    by_cases hp : pk = a
    · rw [if_pos hp] at h
      exact absurd h (by simp)
    · rw [if_neg hp] at h
      rw [List.cons_append, storeLookup_cons, if_neg hp]
      exact ih h

-- ── oauthLogin executor lemmas ──

theorem goodO_init : goodO initO := by
  constructor <;> simp [initO]

theorem goodO_settleSite (s : OState) (k : Settle) (h : goodO s) :
    goodO (settleSite s k) := by
  obtain ⟨h1, h2⟩ := h
  constructor
  · simp [settleSite]
  · by_cases hs : s.settled = true
    · have hne : s.invocations ≠ [] := h1.mp hs
      simp [settleSite, hs, h2, hne]
    · have he : s.invocations = [] := by
        by_contra hne
        exact hs (h1.mpr hne)
      have hs' : s.settled = false := by
        cases hb : s.settled
        · rfl
        · exact absurd hb hs
      simp [settleSite, hs', h2, he]

theorem goodO_step (s : OState) (e : OEvent) (h : goodO s) :
    goodO (ostep s e) := by
  cases e with
  | reqOther => exact h
  | reqError =>
    by_cases hs : s.settled = true
    · simpa [ostep, hs] using h
    · have hs' : s.settled = false := by
        cases hb : s.settled
        · rfl
        · exact absurd hb hs
      simpa [ostep, hs'] using goodO_settleSite s .rej h
  | reqSuccess =>
    by_cases hs : s.settled = true
    · simpa [ostep, hs] using h
    · have hs' : s.settled = false := by
        cases hb : s.settled
        · rfl
        · exact absurd hb hs
      simp only [ostep, hs', Bool.false_eq_true, if_false]
      unfold goodO at h ⊢
      rw [hs'] at h
      exact h
  | finishOk =>
    cases hp : s.pending with
    | zero => simpa [ostep, hp] using h
    | succ n =>
      simp only [ostep, hp]
      exact goodO_settleSite _ .res h
  | finishErr =>
    cases hp : s.pending with
    | zero => simpa [ostep, hp] using h
    | succ n =>
      simp only [ostep, hp]
      exact goodO_settleSite _ .rej h
  | serverError =>
    by_cases hs : s.settled = true
    · simpa [ostep, hs] using h
    · have hs' : s.settled = false := by
        cases hb : s.settled
        · rfl
        · exact absurd hb hs
      simpa [ostep, hs'] using goodO_settleSite s .rej h
  | timeout =>
    by_cases hs : s.settled = true
    · simpa [ostep, hs] using h
    · have hs' : s.settled = false := by
        cases hb : s.settled
        · rfl
        · exact absurd hb hs
      simpa [ostep, hs'] using goodO_settleSite s .rej h

theorem goodO_foldl (t : List OEvent) (s : OState) (h : goodO s) :
    goodO (t.foldl ostep s) := by
  induction t generalizing s with
  | nil => exact h
  | cons e rest ih => exact ih (ostep s e) (goodO_step s e h)

theorem goodO_orun (t : List OEvent) : goodO (orun t) :=
  goodO_foldl t initO goodO_init

theorem ostep_invocations_extend (s : OState) (e : OEvent) :
    ∃ tl, (ostep s e).invocations = s.invocations ++ tl := by
  cases e with
  | reqOther => exact ⟨[], by simp [ostep]⟩
  | reqError =>
    by_cases hs : s.settled = true
    · exact ⟨[], by simp [ostep, hs]⟩
    · have hs' : s.settled = false := by
        cases hb : s.settled
        · rfl
        · exact absurd hb hs
      exact ⟨[.rej], by simp [ostep, hs', settleSite]⟩
  | reqSuccess =>
    by_cases hs : s.settled = true
    · exact ⟨[], by simp [ostep, hs]⟩
    · have hs' : s.settled = false := by
        cases hb : s.settled
        · rfl
        · exact absurd hb hs
      exact ⟨[], by simp [ostep, hs']⟩
  | finishOk =>
    cases hp : s.pending with
    | zero => exact ⟨[], by simp [ostep, hp]⟩
    | succ n => exact ⟨[.res], by simp [ostep, hp, settleSite]⟩
  | finishErr =>
    cases hp : s.pending with
    | zero => exact ⟨[], by simp [ostep, hp]⟩
    | succ n => exact ⟨[.rej], by simp [ostep, hp, settleSite]⟩
  | serverError =>
    by_cases hs : s.settled = true
    · exact ⟨[], by simp [ostep, hs]⟩
    · have hs' : s.settled = false := by
        cases hb : s.settled
        · rfl
        · exact absurd hb hs
      exact ⟨[.rej], by simp [ostep, hs', settleSite]⟩
  | timeout =>
    by_cases hs : s.settled = true
    · exact ⟨[], by simp [ostep, hs]⟩
    · have hs' : s.settled = false := by
        cases hb : s.settled
        · rfl
        · exact absurd hb hs
      exact ⟨[.rej], by simp [ostep, hs', settleSite]⟩

theorem foldl_invocations_extend (t : List OEvent) (s : OState) :
    ∃ tl, (t.foldl ostep s).invocations = s.invocations ++ tl := by
  induction t generalizing s with
  | nil => exact ⟨[], by simp⟩
  | cons e rest ih =>
    obtain ⟨tl1, h1⟩ := ostep_invocations_extend s e
    obtain ⟨tl2, h2⟩ := ih (ostep s e)
    exact ⟨tl1 ++ tl2, by rw [List.foldl_cons, h2, h1, List.append_assoc]⟩

theorem timeout_invocations_ne_nil (s : OState) (h : goodO s) :
    (ostep s .timeout).invocations ≠ [] := by
  by_cases hs : s.settled = true
  · simpa [ostep, hs] using h.1.mp hs
  · have hs' : s.settled = false := by
      cases hb : s.settled
      · rfl
      · exact absurd hb hs
    simp [ostep, hs', settleSite]

theorem head_append_of_ne_nil {α : Type} (l tl : List α) (h : l ≠ []) :
    (l ++ tl).head? = l.head? := by
  cases l with
  | nil => exact absurd rfl h
  | cons x xs => rfl

-- ── Derived store operation lemmas ──

theorem refreshStoreUpdate_lookup (s : Store) (a : String) (d : RefreshData)
    (hs : (storeLookup s a).isSome = true) (k : String) :
    storeLookup (refreshStoreUpdate s a d).1 k
      = if k = a then (storeLookup s a).map (fun r => applyRefresh r d)
        else storeLookup s k := by
  unfold refreshStoreUpdate
  rw [if_pos hs]
  exact storeLookup_mapAt (fun r => applyRefresh r d) s a k

theorem refreshStoreUpdate_keys (s : Store) (a : String) (d : RefreshData) :
    storeKeys (refreshStoreUpdate s a d).1 = storeKeys s := by
  unfold refreshStoreUpdate
  by_cases hs : (storeLookup s a).isSome = true
  · rw [if_pos hs]
    exact storeKeys_mapAt (fun r => applyRefresh r d) s a
  · rw [if_neg hs]

theorem storeSet_lookup_present (s : Store) (a : String) (v : OrgRecord)
    (hs : (storeLookup s a).isSome = true) (k : String) :
    storeLookup (storeSet s a v) k
      = if k = a then (storeLookup s a).map (fun _ => v)
        else storeLookup s k := by
  unfold storeSet
  rw [if_pos hs]
  exact storeLookup_mapAt (fun _ => v) s a k

theorem contains_true_iff_mem (l : List String) (x : String) :
    l.contains x = true ↔ x ∈ l := List.elem_iff

theorem contains_append_self (l : List String) (x : String) :
    (l ++ [x]).contains x = true := by
  rw [contains_true_iff_mem]
  exact List.mem_append_right l (List.mem_singleton_self x)

-- ── Claim theorems ──

/-- C1: in every API-backed call (`sfApi` and `sfRawApi` share
`fetchWithRetry`), the token-refresh-and-retry branch is entered iff the
first response has HTTP status 401 and the stored org record has a truthy
refreshToken; no other condition enters it; the retried second request fetch
happens exactly when the branch was entered and the token refresh itself
succeeded; and there are never more than two request fetches per call. -/
theorem c1_api_single_refresh_retry (org : OrgRecord) (env : FetchEnv) :
    ((fetchWithRetry org env).refreshTried = true
        ↔ (env.first.status = 401 ∧ truthyOpt org.refreshToken = true))
    ∧ (fetchWithRetry org env).fetches ≤ 2
    ∧ ((fetchWithRetry org env).fetches = 2
        ↔ ((fetchWithRetry org env).refreshTried = true
            ∧ env.refreshOutcome.isSome = true))
    ∧ (sfApiCall org env).1 = (fetchWithRetry org env).fetches
    ∧ (sfApiCall org env).2.1 = (fetchWithRetry org env).refreshTried
    ∧ sfRawApiCall org env = fetchWithRetry org env := by
  by_cases hc : (env.first.status = 401 ∧ truthyOpt org.refreshToken = true)
  · obtain ⟨h1, h2⟩ := hc
    cases ho : env.refreshOutcome with
    | none =>
      refine ⟨?_, ?_, ?_, ?_, ?_, rfl⟩ <;>
        simp [fetchWithRetry, sfApiCall, h1, h2, ho]
    | some d =>
      refine ⟨?_, ?_, ?_, ?_, ?_, rfl⟩ <;>
        simp [fetchWithRetry, sfApiCall, h1, h2, ho]
  · have hb : (decide (env.first.status = 401)
        && truthyOpt org.refreshToken) = false := by
      cases h4 : decide (env.first.status = 401) with
      | false => rfl
      | true =>
        cases ht : truthyOpt org.refreshToken with
        | false => rfl
        | true => exact absurd ⟨of_decide_eq_true h4, ht⟩ hc
    refine ⟨?_, ?_, ?_, ?_, ?_, rfl⟩ <;>
      simp [fetchWithRetry, sfApiCall, hb, hc]

/-- C9: `sfApi` maps the final response as: status 204 yields the success
object without reading the body; any other ok status yields the parsed JSON
body; any non-ok status throws the JSON-serialized body; so the call throws
iff the final response is non-ok (204 being an ok status). -/
theorem c9_sfapi_response_mapping :
    (∀ b b' : Json,
        finalizeRes { status := 204, body := b }
          = finalizeRes { status := 204, body := b' }
        ∧ finalizeRes { status := 204, body := b }
          = .ok (Json.obj [("success", Json.bool true)]))
    ∧ (∀ r : SfResponse, r.status ≠ 204 → respOk r = true →
        finalizeRes r = .ok r.body)
    ∧ (∀ r : SfResponse, respOk r = false →
        finalizeRes r = .error (Json.serialize r.body))
    ∧ (∀ r : SfResponse, isErr (finalizeRes r) = true ↔ respOk r = false)
    ∧ (∀ (org : OrgRecord) (env : FetchEnv) (r : SfResponse),
        (fetchWithRetry org env).outcome = Except.ok r →
        (sfApiCall org env).2.2 = finalizeRes r) := by
  refine ⟨?_, ?_, ?_, ?_, ?_⟩
  · intro b b'
    constructor <;> simp [finalizeRes]
  · intro r h204 hok
    simp [finalizeRes, h204, hok]
  · intro r hbad
    have h204 : r.status ≠ 204 := by
      intro hh
      simp [respOk, hh] at hbad
    simp [finalizeRes, h204, hbad]
  · intro r
    by_cases h204 : r.status = 204
    · have hok : respOk r = true := by simp [respOk, h204]
      simp [finalizeRes, h204, hok, isErr]
    · cases hok : respOk r with
      | true => simp [finalizeRes, h204, hok, isErr]
      | false => simp [finalizeRes, h204, hok, isErr]
  · intro org env r h
    simp only [sfApiCall]
    rw [h]

/-- C3: the CallTool handler returns an error-flagged response with the
message text both for a tool name with no handler and for a handler that
throws, and an unflagged response wrapping the returned text for a handler
that returns normally. -/
theorem c3_calltool_error_flagging (α : Type)
    (handlers : String → Option (α → Except String String))
    (name : String) (args : α) :
    (handlers name = none →
        callTool handlers name args
          = { text := "Unknown tool: " ++ name, isError := true })
    ∧ (∀ h e, handlers name = some h → h args = .error e →
        (callTool handlers name args).isError = true
        ∧ (callTool handlers name args).text = "Error: " ++ e
        ∧ ∃ p, (callTool handlers name args).text = p ++ e)
    ∧ (∀ h r, handlers name = some h → h args = .ok r →
        callTool handlers name args = { text := r, isError := false }) := by
  refine ⟨?_, ?_, ?_⟩
  · intro hn
    simp [callTool, hn]
  · intro h e hh he
    refine ⟨?_, ?_, "Error: ", ?_⟩ <;> simp [callTool, hh, he]
  · intro h r hh hr
    simp [callTool, hh, hr]

/-- C4: `runSf` surfaces a failed sf process's own output as the (non-error)
tool result whenever the failure carries stdout or stderr — stdout preferred,
returned unchanged — and throws only when the failed process produced
neither. -/
theorem c4_runsf_passthrough (e : ExecFailure) :
    (e.stdout ≠ "" → runSf (.error e) = .ok e.stdout)
    ∧ (e.stdout = "" → e.stderr ≠ "" → runSf (.error e) = .ok e.stderr)
    ∧ (isErr (runSf (.error e)) = true ↔ (e.stdout = "" ∧ e.stderr = ""))
    ∧ (e.stdout = "" → e.stderr = "" →
        runSf (.error e) = .error ("sf command failed: " ++ e.message)) := by
  refine ⟨?_, ?_, ?_, ?_⟩
  · intro h
    simp [runSf, h]
  · intro h1 h2
    simp [runSf, h1, h2]
  · by_cases h1 : e.stdout = ""
    · by_cases h2 : e.stderr = ""
      · simp [runSf, h1, h2, isErr]
      · simp [runSf, h1, h2, isErr]
    · simp [runSf, h1, isErr]
  · intro h1 h2
    simp [runSf, h1, h2]

/-- C10: `sf_run_command` passes the whitespace-split tokens of the command
to the sf CLI with `--json` appended exactly when absent; the resulting list
always contains `--json`, and the append-if-absent transformation is
idempotent on token lists. -/
theorem c10_run_command_json_flag (command : String) :
    (sfRunCommandArgs command).contains "--json" = true
    ∧ ((jsSplitWs command).contains "--json" = true →
        sfRunCommandArgs command = jsSplitWs command)
    ∧ ((jsSplitWs command).contains "--json" = false →
        sfRunCommandArgs command = jsSplitWs command ++ ["--json"])
    ∧ (∀ args : List String, ensureJson (ensureJson args) = ensureJson args) := by
  refine ⟨?_, ?_, ?_, ?_⟩
  · unfold sfRunCommandArgs ensureJson
    by_cases hc : (jsSplitWs command).contains "--json" = true
    · rw [if_pos hc]
      exact hc
    · rw [if_neg hc]
      exact contains_append_self (jsSplitWs command) "--json"
  · intro hc
    unfold sfRunCommandArgs ensureJson
    rw [if_pos hc]
  · intro hc
    unfold sfRunCommandArgs ensureJson
    rw [if_neg (by rw [hc]; exact Bool.false_ne_true)]
  · intro args
    unfold ensureJson
    by_cases hc : args.contains "--json" = true
    · rw [if_pos hc, if_pos hc]
    · rw [if_neg hc, if_pos (contains_append_self args "--json")]

/-- C5: a successful token refresh on an org whose alias is still stored
mutates that record in place: only `accessToken` (and `instanceUrl` when the
response supplies a truthy one) changes; every other field of the record and
every other alias's record is untouched, and the store is saved. -/
theorem c5_refresh_mutates_in_place (s : Store) (a : String) (d : RefreshData)
    (r : OrgRecord) (h : storeLookup s a = some r) :
    (∀ k, k ≠ a →
        storeLookup (refreshStoreUpdate s a d).1 k = storeLookup s k)
    ∧ storeLookup (refreshStoreUpdate s a d).1 a = some (applyRefresh r d)
    ∧ (applyRefresh r d).accessToken = d.access_token
    ∧ (applyRefresh r d).refreshToken = r.refreshToken
    ∧ (applyRefresh r d).loginUrl = r.loginUrl
    ∧ (applyRefresh r d).username = r.username
    ∧ (applyRefresh r d).orgId = r.orgId
    ∧ (applyRefresh r d).displayName = r.displayName
    ∧ (applyRefresh r d).authenticatedAt = r.authenticatedAt
    ∧ (truthyOpt d.instance_url = false →
        (applyRefresh r d).instanceUrl = r.instanceUrl)
    ∧ (∀ u, d.instance_url = some u → u ≠ "" →
        (applyRefresh r d).instanceUrl = u)
    ∧ (refreshStoreUpdate s a d).2 = true := by
  have hs : (storeLookup s a).isSome = true := by rw [h]; rfl
  refine ⟨?_, ?_, rfl, rfl, rfl, rfl, rfl, rfl, rfl, ?_, ?_, ?_⟩
  · intro k hk
    rw [refreshStoreUpdate_lookup s a d hs k, if_neg hk]
  · rw [refreshStoreUpdate_lookup s a d hs a, if_pos rfl, h]
    rfl
  · intro ht
    cases hd : d.instance_url with
    | none => simp [applyRefresh, hd]
    | some u =>
      rw [hd] at ht
      have hu : u = "" := by simpa [truthyOpt] using ht
      simp [applyRefresh, hd, hu]
  · intro u hd hu
    simp [applyRefresh, hd, hu]
  · unfold refreshStoreUpdate
    rw [if_pos hs]

/-- C6: `sf_org_logout` removes exactly the record keyed by the given alias
when present (every other key's lookup is unchanged, the key list loses only
that alias, a write happens, and the response reports success); when the
alias is absent the store is returned untouched with no write and an error
response. -/
theorem c6_logout_removes_exactly_alias (s : Store) (a : String) :
    ((storeLookup s a).isSome = true →
        storeLookup (sfOrgLogout s a).store a = none
        ∧ (∀ k, k ≠ a →
            storeLookup (sfOrgLogout s a).store k = storeLookup s k)
        ∧ storeKeys (sfOrgLogout s a).store
            = (storeKeys s).filter (fun k => k ≠ a)
        ∧ (sfOrgLogout s a).wrote = true
        ∧ (sfOrgLogout s a).response
            = Json.obj [("success", Json.bool true), ("removed", Json.str a)])
    ∧ ((storeLookup s a).isSome = false →
        (sfOrgLogout s a).store = s
        ∧ (sfOrgLogout s a).wrote = false
        ∧ (sfOrgLogout s a).response
            = Json.obj [("error",
                Json.str ("Org \"" ++ a ++ "\" not found"))]) := by
  constructor
  · intro hs
    unfold sfOrgLogout
    rw [if_pos hs]
    exact ⟨storeLookup_delete_self s a,
      fun k hk => storeLookup_delete_ne s a k hk,
      storeKeys_delete s a, rfl, rfl⟩
  · intro hs
    unfold sfOrgLogout
    rw [if_neg (by rw [hs]; exact Bool.false_ne_true)]
    exact ⟨rfl, rfl, rfl⟩

/-- C7: every credential-store operation preserves the invariant that each
alias keys exactly one record (no duplicate keys), and a login save under an
existing alias replaces that alias's record in place instead of adding a
second entry (the key list is unchanged and the alias now maps to the new
record). -/
theorem c7_store_alias_uniqueness (s : Store) (a : String) (v : OrgRecord)
    (d : RefreshData) (hnd : (storeKeys s).Nodup) :
    (storeKeys (storeSet s a v)).Nodup
    ∧ (storeKeys (refreshStoreUpdate s a d).1).Nodup
    ∧ (storeKeys (storeDelete s a)).Nodup
    ∧ ((storeLookup s a).isSome = true →
        storeKeys (storeSet s a v) = storeKeys s
        ∧ storeLookup (storeSet s a v) a = some v)
    ∧ ((storeLookup s a).isSome = false →
        storeKeys (storeSet s a v) = storeKeys s ++ [a]
        ∧ storeLookup (storeSet s a v) a = some v) := by
  refine ⟨?_, ?_, ?_, ?_, ?_⟩
  · by_cases hs : (storeLookup s a).isSome = true
    · have hk : storeKeys (storeSet s a v) = storeKeys s := by
        unfold storeSet
        rw [if_pos hs]
        exact storeKeys_mapAt (fun _ => v) s a
      rw [hk]
      exact hnd
    · have hn : storeLookup s a = none := by
        cases hl : storeLookup s a with
        | none => rfl
        | some x => rw [hl] at hs; exact absurd rfl hs
      have hmem : a ∉ storeKeys s := (storeLookup_none_iff s a).mp hn
      have hk : storeKeys (storeSet s a v) = storeKeys s ++ [a] := by
        unfold storeSet
        rw [if_neg hs]
        simp [storeKeys]
      rw [hk, List.nodup_append]
      exact ⟨hnd, List.nodup_singleton a,
        fun x hx hx1 => by
          rw [List.mem_singleton] at hx1
          exact hmem (hx1 ▸ hx)⟩
  · rw [refreshStoreUpdate_keys s a d]
    exact hnd
  · rw [storeKeys_delete s a]
    exact hnd.filter _
  · intro hs
    obtain ⟨x, hx⟩ := Option.isSome_iff_exists.mp hs
    constructor
    · unfold storeSet
      rw [if_pos hs]
      exact storeKeys_mapAt (fun _ => v) s a
    · rw [storeSet_lookup_present s a v hs a, if_pos rfl, hx]
      rfl
  · intro hs
    have hn : storeLookup s a = none := by
      cases hl : storeLookup s a with
      | none => rfl
      | some x => rw [hl] at hs; simp at hs
    constructor
    · unfold storeSet
      rw [if_neg (by rw [hs]; exact Bool.false_ne_true)]
      simp [storeKeys]
    · unfold storeSet
      rw [if_neg (by rw [hs]; exact Bool.false_ne_true)]
      exact storeLookup_append_self s a v hn

/-- C8: `getOrg` throws the "No Salesforce orgs connected" error iff the
store is empty; when the store is non-empty but the requested alias (or the
DEFAULT_ORG fallback) resolves to no stored key — or to no key at all — it
silently returns the first stored org instead of failing. -/
theorem c8_getorg_empty_error_else_fallback (s : Store) (a dflt : String) :
    (isErr (getOrg s a dflt) = true ↔ s = [])
    ∧ (s = [] →
        getOrg s a dflt = .error
          "No Salesforce orgs connected. Use the sf_org_login tool to authenticate.")
    ∧ (∀ pk pv rest, s = (pk, pv) :: rest →
        ((if a ≠ "" then a else dflt) = ""
          ∨ storeLookup s (if a ≠ "" then a else dflt) = none) →
        getOrg s a dflt = .ok (pk, pv)) := by
  refine ⟨?_, ?_, ?_⟩
  · cases s with
    | nil =>
      simp only [getOrg]
      constructor
      · intro _
        trivial
      · intro _
        cases hkey : (if (if a ≠ "" then a else dflt) ≠ ""
            then storeLookup [] (if a ≠ "" then a else dflt) else none) with
        | none => rfl
        | some r =>
          by_cases hk : (if a ≠ "" then a else dflt) ≠ ""
          · rw [if_pos hk] at hkey
            exact absurd hkey (by simp [storeLookup])
          · rw [if_neg hk] at hkey
            exact absurd hkey (by simp)
    | cons p rest =>
      obtain ⟨pk, pv⟩ := p
      simp only [getOrg]
      constructor
      · intro herr
        cases hkey : (if (if a ≠ "" then a else dflt) ≠ ""
            then storeLookup ((pk, pv) :: rest) (if a ≠ "" then a else dflt)
            else none) with
        | none => rw [hkey] at herr; simp [isErr] at herr
        | some r => rw [hkey] at herr; simp [isErr] at herr
      · intro hh
        exact absurd hh (by simp)
  · intro hs
    subst hs
    simp only [getOrg]
    cases hkey : (if (if a ≠ "" then a else dflt) ≠ ""
        then storeLookup [] (if a ≠ "" then a else dflt) else none) with
    | none => rfl
    | some r =>
      by_cases hk : (if a ≠ "" then a else dflt) ≠ ""
      · rw [if_pos hk] at hkey
        exact absurd hkey (by simp [storeLookup])
      · rw [if_neg hk] at hkey
        exact absurd hkey (by simp)
  · intro pk pv rest hs hmiss
    subst hs
    simp only [getOrg]
    have hkey : (if (if a ≠ "" then a else dflt) ≠ ""
        then storeLookup ((pk, pv) :: rest) (if a ≠ "" then a else dflt)
        else none) = none := by
      rcases hmiss with hmiss | hmiss
      · rw [if_neg (by rw [hmiss]; simp)]
      · by_cases hk : (if a ≠ "" then a else dflt) ≠ ""
        · rw [if_pos hk]
          exact hmiss
        · rw [if_neg hk]
    rw [hkey]

/-- C2: for every interleaving of callback requests, in-flight handler
completions, server errors and the timeout during `oauthLogin`, exactly one
resolve/reject invocation is made while the `settled` flag is false (the
timeout event guarantees at least one invocation), and promise semantics fix
the outcome at the first invocation: later invocations never change it. -/
theorem c2_oauthlogin_settles_exactly_once :
    (∀ pre post : List OEvent,
        (orun (pre ++ OEvent.timeout :: post)).flips = 1
        ∧ (orun (pre ++ OEvent.timeout :: post)).invocations ≠ [])
    ∧ (∀ t more : List OEvent,
        (orun t).invocations ≠ [] →
        promiseOutcome (orun (t ++ more)) = promiseOutcome (orun t)) := by
  constructor
  · intro pre post
    have hrw : orun (pre ++ OEvent.timeout :: post)
        = post.foldl ostep (ostep (orun pre) OEvent.timeout) := by
      unfold orun
      rw [List.foldl_append, List.foldl_cons]
    have hg : goodO (orun pre) := goodO_orun pre
    have hne : (ostep (orun pre) OEvent.timeout).invocations ≠ [] :=
      timeout_invocations_ne_nil (orun pre) hg
    obtain ⟨tl, htl⟩ :=
      foldl_invocations_extend post (ostep (orun pre) OEvent.timeout)
    have hinv : (orun (pre ++ OEvent.timeout :: post)).invocations ≠ [] := by
      rw [hrw, htl]
      intro hcontra
      exact hne (List.append_eq_nil.mp hcontra).1
    have hgood : goodO (orun (pre ++ OEvent.timeout :: post)) :=
      goodO_orun _
    refine ⟨?_, hinv⟩
    rw [hgood.2, if_neg hinv]
  · intro t more hne
    have hrw : orun (t ++ more) = more.foldl ostep (orun t) := by
      unfold orun
      rw [List.foldl_append]
    obtain ⟨tl, htl⟩ := foldl_invocations_extend more (orun t)
    unfold promiseOutcome
    rw [hrw, htl, head_append_of_ne_nil _ _ hne]

-- ── Witnesses: the claim theorems evaluated at concrete inputs ──

theorem c1_api_single_refresh_retry_witness :
    (sfApiCall sampleOrg sampleEnv401).1
        = (fetchWithRetry sampleOrg sampleEnv401).fetches
    ∧ (fetchWithRetry sampleOrg sampleEnv401).fetches ≤ 2 :=
  ⟨(c1_api_single_refresh_retry sampleOrg sampleEnv401).2.2.2.1,
    (c1_api_single_refresh_retry sampleOrg sampleEnv401).2.1⟩

theorem c2_oauthlogin_settles_exactly_once_witness :
    (orun ([OEvent.reqSuccess, OEvent.reqError]
        ++ OEvent.timeout :: [OEvent.finishOk])).flips = 1
    ∧ promiseOutcome (orun ([OEvent.reqError] ++ [OEvent.timeout]))
        = promiseOutcome (orun [OEvent.reqError]) :=
  ⟨(c2_oauthlogin_settles_exactly_once.1
      [OEvent.reqSuccess, OEvent.reqError] [OEvent.finishOk]).1,
    c2_oauthlogin_settles_exactly_once.2
      [OEvent.reqError] [OEvent.timeout] (by decide)⟩

theorem c3_calltool_error_flagging_witness :
    (callTool sampleHandlers "sf_query" ()).isError = true
    ∧ callTool sampleHandlers "sf_org_list" ()
        = { text := "[]", isError := false }
    ∧ callTool sampleHandlers "nope" ()
        = { text := "Unknown tool: " ++ "nope", isError := true } :=
  ⟨((c3_calltool_error_flagging Unit sampleHandlers "sf_query" ()).2.1
      (fun _ => Except.error "boom") "boom" rfl rfl).1,
    (c3_calltool_error_flagging Unit sampleHandlers "sf_org_list" ()).2.2
      (fun _ => Except.ok "[]") "[]" rfl rfl,
    (c3_calltool_error_flagging Unit sampleHandlers "nope" ()).1 rfl⟩

theorem c4_runsf_passthrough_witness :
    runSf (.error sampleFail) = .ok sampleFail.stderr :=
  (c4_runsf_passthrough sampleFail).2.1 rfl (by decide)

theorem c5_refresh_mutates_in_place_witness :
    storeLookup (refreshStoreUpdate sampleStore "prod" sampleRefresh).1 "dev"
        = storeLookup sampleStore "dev"
    ∧ storeLookup (refreshStoreUpdate sampleStore "prod" sampleRefresh).1 "prod"
        = some (applyRefresh sampleOrg sampleRefresh) := by
  have h := c5_refresh_mutates_in_place sampleStore "prod" sampleRefresh
    sampleOrg (by decide)
  exact ⟨h.1 "dev" (by decide), h.2.1⟩

theorem c6_logout_removes_exactly_alias_witness :
    storeLookup (sfOrgLogout sampleStore "prod").store "prod" = none
    ∧ (sfOrgLogout sampleStore "staging").wrote = false :=
  ⟨((c6_logout_removes_exactly_alias sampleStore "prod").1 (by decide)).1,
    ((c6_logout_removes_exactly_alias sampleStore "staging").2 (by decide)).2.1⟩

theorem c7_store_alias_uniqueness_witness :
    (storeKeys (storeSet sampleStore "prod" sampleOrg2)).Nodup
    ∧ storeKeys (storeSet sampleStore "prod" sampleOrg2)
        = storeKeys sampleStore := by
  have h := c7_store_alias_uniqueness sampleStore "prod" sampleOrg2
    sampleRefresh (by decide)
  exact ⟨h.1, (h.2.2.2.1 (by decide)).1⟩

theorem c8_getorg_empty_error_else_fallback_witness :
    getOrg sampleStore "staging" "" = .ok ("prod", sampleOrg)
    ∧ isErr (getOrg [] "staging" "") = true :=
  ⟨(c8_getorg_empty_error_else_fallback sampleStore "staging" "").2.2
      "prod" sampleOrg [("dev", sampleOrg2)] rfl (Or.inr (by decide)),
    (c8_getorg_empty_error_else_fallback [] "staging" "").1.mpr rfl⟩

theorem c9_sfapi_response_mapping_witness :
    finalizeRes { status := 200, body := Json.str "ok" } = .ok (Json.str "ok")
    ∧ finalizeRes { status := 404, body := Json.null }
        = .error (Json.serialize Json.null) :=
  ⟨c9_sfapi_response_mapping.2.1 { status := 200, body := Json.str "ok" }
      (by decide) (by decide),
    c9_sfapi_response_mapping.2.2.1 { status := 404, body := Json.null }
      (by decide)⟩

theorem c10_run_command_json_flag_witness :
    (sfRunCommandArgs "org list").contains "--json" = true
    ∧ sfRunCommandArgs "org list --json" = jsSplitWs "org list --json" :=
  ⟨(c10_run_command_json_flag "org list").1,
    (c10_run_command_json_flag "org list --json").2.1 (by decide)⟩
